import Mathlib

/-!
Shallow embedding of the Shiden34 NFT contract
(`contracts/shiden34/src/lib.rs`): sequential mint allocation, payment and
supply checks, base-URI metadata, owner-gated configuration and the
reentrancy guard.  Machine integers are modelled as `Nat` with explicit
`% 2 ^ 64` (`u64`) and `% 2 ^ 128` (`u128`) wherever the Rust arithmetic
can wrap (release-profile wrapping semantics).  Entry points that can
panic (`assert!`, `unwrap`) return `Option`, `none` marking the abort.
Environment inputs (`caller`, `transferred_value`) are explicit arguments.
-/

namespace Shiden34

/-- Account identifiers (ink! `AccountId`), abstracted to `Nat`. -/
abbrev Account : Type := Nat

/-- PSP34 token identifier: the contract uses `Id::U8(0)` as the sentinel
key of collection-level attributes and `Id::U64 n` for minted tokens. -/
inductive Id : Type where
  | U8 : Nat → Id
  | U64 : Nat → Id
  deriving DecidableEq

/-- Errors surfaced by the contract.  The strings are the ones the source
builds with `PSP34Error::Custom`; the spec's error taxonomy maps onto them
as `BadPaymentAmount` = `Custom "BadMintValue"`, `ZeroQuantity` =
`Custom "CannotMintZeroTokens"`, `SupplyExceeded` =
`Custom "CollectionFullOrLocked"` and `NotAuthorized` =
`Custom "O::CallerIsNotOwner"` (the `only_owner` modifier's error, pinned
by the repository's own test).  `ReentrancyDetected` is modelled from the
spec: it stands for the reentrancy-guard collaborator's error, whose
implementation lives outside this repository's sources. -/
inductive PSP34Error : Type where
  | Custom : String → PSP34Error
  | TokenExists : PSP34Error
  | TokenNotExists : PSP34Error
  | ReentrancyDetected : PSP34Error
  deriving DecidableEq

/-- Contract storage plus the collaborator state the core touches:
`owners` and `owned` model the PSP34 ownership registry with its
per-account enumeration list (ids in registration order), `attributes`
the metadata key-value store, `guard` the reentrancy lock and `owner`
the `Ownable` administrator.  The remaining fields are the contract's own
storage (`last_token_id`, `collection_id`, `max_supply`,
`price_per_mint`). -/
@[ext]
structure State : Type where
  owners : Id → Option Account
  owned : Account → List Id
  attributes : Id → String → Option String
  guard : Bool
  owner : Account
  last_token_id : Nat
  collection_id : Nat
  max_supply : Nat
  price_per_mint : Nat

/-- The metadata store's `_set_attribute` collaborator (spec §6). -/
def setAttribute (s : State) (id : Id) (key val : String) : State :=
  { s with attributes := fun i k =>
      if i = id ∧ k = key then some val else s.attributes i k }

/-- The metadata store's `get_attribute` collaborator (spec §6). -/
def getAttribute (s : State) (id : Id) (key : String) : Option String :=
  s.attributes id key

/-- The ownership registry's `_mint_to` collaborator: fails with
`TokenExists` on an already-registered id, otherwise records the owner
and appends the id to the recipient's enumeration list (spec §6). -/
def mintTo (s : State) (recipient : Account) (id : Id) : Except PSP34Error State :=
  match s.owners id with
  | some _ => .error .TokenExists
  | none => .ok { s with
      owners := fun j => if j = id then some recipient else s.owners j,
      owned := fun a => if a = recipient then s.owned a ++ [id] else s.owned a }

/-- The ownership registry's `owner_of` lookup (spec §6). -/
def owner_of (s : State) (id : Id) : Option Account :=
  s.owners id

/-- The constructor `new`: sets the three collection attributes at the
sentinel `Id::U8(0)`, `max_supply`, `price_per_mint`, `last_token_id = 0`
and the constructing caller as `Ownable` owner. -/
def new (caller : Account) (name symbol base_uri : String)
    (max_supply : Nat) (price_per_mint : Nat) : State :=
  setAttribute (setAttribute (setAttribute
    { owners := fun _ => none
      owned := fun _ => []
      attributes := fun _ _ => none
      guard := false
      owner := caller
      last_token_id := 0
      collection_id := 0
      max_supply := max_supply
      price_per_mint := price_per_mint }
    (Id.U8 0) "name" name) (Id.U8 0) "symbol" symbol) (Id.U8 0) "baseUri" base_uri

/-- `check_value`: the attached value must equal
`mint_amount as u128 * price_per_mint`, the product taken in wrapping
`u128` arithmetic. -/
def check_value (s : State) (transferred : Nat) (mint_amount : Nat) :
    Except PSP34Error Unit :=
  if transferred ≠ mint_amount * s.price_per_mint % 2 ^ 128 then
    .error (.Custom "BadMintValue")
  else .ok ()

/-- `check_amount`: the quantity must be non-zero and the `u64` sum
`last_token_id + mint_amount` (wrapping, as in the release build) must
not exceed `max_supply`. -/
def check_amount (s : State) (mint_amount : Nat) : Except PSP34Error Unit :=
  if mint_amount = 0 then .error (.Custom "CannotMintZeroTokens")
  else if s.max_supply < (s.last_token_id + mint_amount) % 2 ^ 64 then
    .error (.Custom "CollectionFullOrLocked")
  else .ok ()

/-- `token_exists`: `owner_of(id).ok_or(TokenNotExists)`. -/
def token_exists (s : State) (id : Id) : Except PSP34Error Unit :=
  match owner_of s id with
  | none => .error .TokenNotExists
  | some _ => .ok ()

/-- The `PSP34Mintable::mint` override: checks the single-unit payment,
increments `last_token_id` (wrapping `u64` add) and mints the new id to
the CALLER; both message arguments are ignored by the source. -/
def mint (s : State) (caller : Account) (transferred : Nat)
    (_to : Account) (_id : Id) : Except PSP34Error Unit × State :=
  match check_value s transferred 1 with
  | .error e => (.error e, s)
  | .ok _ =>
    let s1 := { s with last_token_id := (s.last_token_id + 1) % 2 ^ 64 }
    match mintTo s1 caller (Id.U64 s1.last_token_id) with
    | .error e => (.error e, s1)
    | .ok s2 => (.ok (), s2)

/-- The `for mint_id in next_to_mint..mint_offset` loop of `mint_for`:
each step runs `assert!(self._mint_to(recipient, Id::U64(mint_id)).is_ok())`
and then `self.last_token_id += 1`; `none` models the `assert!` panic.
The first argument is the number of iterations, `mint_offset -
next_to_mint` as the Rust range iterator counts them. -/
def mintLoop (recipient : Account) : Nat → Nat → State → Option State
  | 0, _, s => some s
  | n + 1, i, s =>
    match mintTo s recipient (Id.U64 i) with
    | .error _ => none
    | .ok s1 =>
      mintLoop recipient n (i + 1)
        { s1 with last_token_id := (s1.last_token_id + 1) % 2 ^ 64 }

/-- Body of `mint_for`, inside the `non_reentrant` modifier: payment
check, supply check, then the sequential mint loop over
`next_to_mint..mint_offset` (both bounds wrapping `u64` sums). -/
def mint_for_body (s : State) (_caller : Account) (transferred : Nat)
    (recipient : Account) (mint_amount : Nat) :
    Option (Except PSP34Error Unit × State) :=
  match check_value s transferred mint_amount with
  | .error e => some (.error e, s)
  | .ok _ =>
    match check_amount s mint_amount with
    | .error e => some (.error e, s)
    | .ok _ =>
      let next_to_mint := (s.last_token_id + 1) % 2 ^ 64
      let mint_offset := (next_to_mint + mint_amount) % 2 ^ 64
      match mintLoop recipient (mint_offset - next_to_mint) next_to_mint s with
      | none => none
      | some s1 => some (.ok (), s1)

/-- Public `mint_for`: the `non_reentrant` modifier around the body.
Modelled from the spec: the reentrancy-guard collaborator (§5, §6) fails
with `ReentrancyDetected` when the lock is already held, otherwise holds
the lock around the body and releases it on every returning exit path. -/
def mint_for (s : State) (caller : Account) (transferred : Nat)
    (recipient : Account) (mint_amount : Nat) :
    Option (Except PSP34Error Unit × State) :=
  if s.guard then some (.error .ReentrancyDetected, s)
  else
    match mint_for_body { s with guard := true } caller transferred recipient mint_amount with
    | none => none
    | some (r, s1) => some (r, { s1 with guard := false })

/-- `set_base_uri` under the `only_owner` modifier.  Modelled from the
spec and the repository's own test: a caller other than the `Ownable`
owner gets `Custom "O::CallerIsNotOwner"`; the owner overwrites the
`baseUri` attribute at the sentinel id. -/
def set_base_uri (s : State) (caller : Account) (uri : String) :
    Except PSP34Error Unit × State :=
  if caller = s.owner then
    (.ok (), setAttribute s (Id.U8 0) "baseUri" uri)
  else (.error (.Custom "O::CallerIsNotOwner"), s)

/-- `token_uri`: existence check first, then the `baseUri` attribute is
`unwrap`ped (`none` models the panic on a missing attribute; the second
source `unwrap`, UTF-8 decoding, cannot fail in this model because
attribute values round-trip as strings) and the URI is the plain
concatenation `base ++ decimal(token_id) ++ ".json"`. -/
def token_uri (s : State) (token_id : Nat) :
    Option (Except PSP34Error String) :=
  match token_exists s (Id.U64 token_id) with
  | .error e => some (.error e)
  | .ok _ =>
    match getAttribute s (Id.U8 0) "baseUri" with
    | none => none
    | some base => some (.ok (base ++ toString token_id ++ ".json"))

/-- The read-only `max_supply` accessor. -/
def max_supply (s : State) : Nat :=
  s.max_supply

/-- States reachable from construction through the state-changing public
entry points (`token_uri` and `max_supply` read the state only). -/
inductive Reachable : State → Prop where
  | construct : ∀ caller name symbol base_uri ms price,
      Reachable (new caller name symbol base_uri ms price)
  | step_mint : ∀ s caller tv recipient id r s1, Reachable s →
      mint s caller tv recipient id = (r, s1) → Reachable s1
  | step_mint_for : ∀ s caller tv recipient q r s1, Reachable s →
      mint_for s caller tv recipient q = some (r, s1) → Reachable s1
  | step_set_base_uri : ∀ s caller uri r s1, Reachable s →
      set_base_uri s caller uri = (r, s1) → Reachable s1

/-- Result component of a possibly-panicking entry-point outcome. -/
def resOf : Option (Except PSP34Error Unit × State) → Option (Except PSP34Error Unit)
  | none => none
  | some p => some p.1

/-- `last_token_id` of the state a possibly-panicking entry point leaves. -/
def lastOf : Option (Except PSP34Error Unit × State) → Option Nat
  | none => none
  | some p => some p.2.last_token_id

/-- Registered owner of `id` in the state a possibly-panicking entry
point leaves. -/
def ownerAt (id : Id) : Option (Except PSP34Error Unit × State) → Option (Option Account)
  | none => none
  | some p => some (p.2.owners id)

/-- Correctness of the sequential mint loop: when the `n` ids
`i, i+1, …, i+n-1` are unregistered and the counter cannot wrap, the loop
registers exactly those ids to the recipient, appends them in ascending
order to the recipient's enumeration list and advances `last_token_id`
by `n`. -/
theorem mintLoop_eq (recipient : Account) (n : Nat) :
    ∀ (i : Nat) (s : State),
      (∀ k, k < n → s.owners (Id.U64 (i + k)) = none) →
      s.last_token_id + n < 2 ^ 64 →
      mintLoop recipient n i s = some
        { s with
          last_token_id := s.last_token_id + n,
          owners := fun id =>
            if id ∈ (List.range' i n).map Id.U64 then some recipient
            else s.owners id,
          owned := fun a =>
            if a = recipient then s.owned a ++ (List.range' i n).map Id.U64
            else s.owned a } := by
  induction n with
  | zero =>
    intro i s _ _
    show some s = _
    congr 1
    refine State.ext ?_ ?_ rfl rfl rfl ?_ rfl rfl rfl
    · funext id
      simp [List.range']
    · funext a
      simp [List.range']
    · simp
  | succ n ih =>
    intro i s hfresh hlt
    have h0 : s.owners (Id.U64 i) = none := by
      have h := hfresh 0 (Nat.succ_pos n)
      simpa using h
    have hmod : (s.last_token_id + 1) % 2 ^ 64 = s.last_token_id + 1 :=
      Nat.mod_eq_of_lt (by omega)
    have step : mintLoop recipient (n + 1) i s =
        mintLoop recipient n (i + 1)
          { s with
            owners := fun j => if j = Id.U64 i then some recipient else s.owners j,
            owned := fun a => if a = recipient then s.owned a ++ [Id.U64 i] else s.owned a,
            last_token_id := (s.last_token_id + 1) % 2 ^ 64 } := by
      simp only [mintLoop, mintTo, h0]
    rw [step]
    have ihh := ih (i + 1)
      { s with
        owners := fun j => if j = Id.U64 i then some recipient else s.owners j,
        owned := fun a => if a = recipient then s.owned a ++ [Id.U64 i] else s.owned a,
        last_token_id := (s.last_token_id + 1) % 2 ^ 64 }
      (by
        intro k hk
        show (if Id.U64 (i + 1 + k) = Id.U64 i then some recipient
          else s.owners (Id.U64 (i + 1 + k))) = none
        rw [if_neg (by simp only [Id.U64.injEq]; omega)]
        have h := hfresh (k + 1) (by omega)
        have e : i + (k + 1) = i + 1 + k := by omega
        rw [e] at h
        exact h)
      (by
        show (s.last_token_id + 1) % 2 ^ 64 + n < 2 ^ 64
        rw [hmod]
        omega)
    rw [ihh]
    congr 1
    refine State.ext ?_ ?_ rfl rfl rfl ?_ rfl rfl rfl
    · funext id
      dsimp only
      rw [List.range'_succ i n 1, List.map_cons]
      by_cases hid : id = Id.U64 i
      · subst hid
        have hnot : Id.U64 i ∉ (List.range' (i + 1) n).map Id.U64 := by
          simp only [List.mem_map, List.mem_range'_1, Id.U64.injEq, not_exists, not_and]
          intro a ha
          omega
        simp [hnot]
      · by_cases hmem : id ∈ (List.range' (i + 1) n).map Id.U64
        · simp [hmem, hid]
        · simp [hmem, hid]
    · funext a
      dsimp only
      rw [List.range'_succ i n 1, List.map_cons]
      by_cases ha : a = recipient
      · subst ha
        simp [List.append_assoc]
      · simp [ha]
    · show (s.last_token_id + 1) % 2 ^ 64 + n = s.last_token_id + (n + 1)
      rw [hmod]
      omega

/-- C1 (amended): for every contract state with the lock free, every id
above `last_token_id` unregistered and every quantity `q > 0` with exact
payment, `last_token_id + q ≤ max_supply` AND `last_token_id + q <
2 ^ 64 - 1` (the extra side condition the u64 wrap forces, see
`mint_for_wrap_cex`), `mint_for` succeeds, registers exactly the ids
`last_token_id + 1 .. last_token_id + q` to the recipient in ascending
order, and increases `last_token_id` by exactly `q`. -/
theorem mint_for_mints_sequentially (s : State) (caller recipient : Account)
    (tv q : Nat)
    (hg : s.guard = false)
    (hq : 0 < q)
    (hpay : tv = q * s.price_per_mint % 2 ^ 128)
    (hcap : s.last_token_id + q ≤ s.max_supply)
    (hwrap : s.last_token_id + q < 2 ^ 64 - 1)
    (hfresh : ∀ i, s.last_token_id < i → s.owners (Id.U64 i) = none) :
    mint_for s caller tv recipient q = some (.ok (),
      { s with
        last_token_id := s.last_token_id + q,
        owners := fun id =>
          if id ∈ (List.range' (s.last_token_id + 1) q).map Id.U64 then some recipient
          else s.owners id,
        owned := fun a =>
          if a = recipient then s.owned a ++ (List.range' (s.last_token_id + 1) q).map Id.U64
          else s.owned a }) := by
  have hm1 : (s.last_token_id + 1) % 2 ^ 64 = s.last_token_id + 1 :=
    Nat.mod_eq_of_lt (by omega)
  have hm2 : (s.last_token_id + 1 + q) % 2 ^ 64 = s.last_token_id + 1 + q :=
    Nat.mod_eq_of_lt (by omega)
  have hm3 : (s.last_token_id + q) % 2 ^ 64 = s.last_token_id + q :=
    Nat.mod_eq_of_lt (by omega)
  have hcv : check_value { s with guard := true } tv q = .ok () := by
    simp [check_value, hpay]
  have hca : check_amount { s with guard := true } q = .ok () := by
    show (if q = 0 then _
      else if s.max_supply < (s.last_token_id + q) % 2 ^ 64 then _
      else Except.ok ()) = Except.ok ()
    rw [if_neg (by omega), hm3, if_neg (by omega)]
  have hloop := mintLoop_eq recipient q (s.last_token_id + 1) { s with guard := true }
    (by
      intro k hk
      show s.owners (Id.U64 (s.last_token_id + 1 + k)) = none
      exact hfresh _ (by omega))
    (by show s.last_token_id + q < 2 ^ 64; omega)
  have hbody : mint_for_body { s with guard := true } caller tv recipient q =
      some (.ok (), { s with
        guard := true,
        last_token_id := s.last_token_id + q,
        owners := fun id =>
          if id ∈ (List.range' (s.last_token_id + 1) q).map Id.U64 then some recipient
          else s.owners id,
        owned := fun a =>
          if a = recipient then s.owned a ++ (List.range' (s.last_token_id + 1) q).map Id.U64
          else s.owned a }) := by
    simp only [mint_for_body, hcv, hca]
    rw [hm1]
    rw [show (s.last_token_id + 1 + q) % 2 ^ 64 = s.last_token_id + 1 + q from hm2]
    rw [show s.last_token_id + 1 + q - (s.last_token_id + 1) = q from by omega]
    rw [hloop]
  simp only [mint_for, hg]
  rw [hbody]
  rfl

/-- C1 witness: from a fresh contract with `max_supply = 10` and
`price_per_mint = 5`, a batch of 2 with payment 10 mints ids 1 and 2 to
account 3 in order and leaves `last_token_id = 2`. -/
theorem mint_for_mints_sequentially_witness :
    mint_for (new 0 "n" "s" "b/" 10 5) 2 10 3 2 = some (.ok (),
      { new 0 "n" "s" "b/" 10 5 with
        last_token_id := 2,
        owners := fun id => if id ∈ [Id.U64 1, Id.U64 2] then some 3 else none,
        owned := fun a => if a = 3 then [Id.U64 1, Id.U64 2] else [] }) :=
  mint_for_mints_sequentially (new 0 "n" "s" "b/" 10 5) 2 3 10 2 rfl
    (by decide) rfl (by decide) (by decide) (fun _ _ => rfl)

/-- C1 counterexample: with `max_supply = 2 ^ 64 - 1`, `price_per_mint =
0`, quantity `2 ^ 64 - 1` and exact payment from the fresh state (so
`q > 0`, payment exact and `last_token_id + q ≤ max_supply` all hold as
the claim requires), the u64 `mint_offset` wraps to 0, the loop is empty
and `mint_for` returns success WITHOUT minting anything: `last_token_id`
stays 0 (not `0 + q`) and token 1 has no owner. -/
theorem mint_for_wrap_cex :
    resOf (mint_for (new 0 "n" "s" "b/" (2 ^ 64 - 1) 0) 0 0 1 (2 ^ 64 - 1)) =
      some (.ok ()) ∧
    lastOf (mint_for (new 0 "n" "s" "b/" (2 ^ 64 - 1) 0) 0 0 1 (2 ^ 64 - 1)) =
      some 0 ∧
    ownerAt (Id.U64 1) (mint_for (new 0 "n" "s" "b/" (2 ^ 64 - 1) 0) 0 0 1 (2 ^ 64 - 1)) =
      some none :=
  ⟨rfl, rfl, rfl⟩

/-- C4 (amended): for every top-level state (lock free, invariant
`last_token_id ≤ max_supply`) and quantity `q` with EXACT payment and
`last_token_id + q > max_supply`, where the u64 sum does not wrap,
`mint_for` fails with `SupplyExceeded` (`Custom "CollectionFullOrLocked"`)
and the state — `last_token_id` included — is unchanged.  The exact-payment
hypothesis is forced by `mint_for_wrong_payment_error_cex`: the payment
check runs first. -/
theorem mint_for_supply_exceeded (s : State) (caller recipient : Account) (tv q : Nat)
    (hg : s.guard = false)
    (hinv : s.last_token_id ≤ s.max_supply)
    (hpay : tv = q * s.price_per_mint % 2 ^ 128)
    (hcap : s.max_supply < s.last_token_id + q)
    (hwrap : s.last_token_id + q < 2 ^ 64) :
    mint_for s caller tv recipient q =
      some (.error (.Custom "CollectionFullOrLocked"), s) := by
  have hq : ¬ q = 0 := by omega
  have hm3 : (s.last_token_id + q) % 2 ^ 64 = s.last_token_id + q :=
    Nat.mod_eq_of_lt hwrap
  have hcv : check_value { s with guard := true } tv q = .ok () := by
    simp [check_value, hpay]
  have hca : check_amount { s with guard := true } q =
      .error (.Custom "CollectionFullOrLocked") := by
    show (if q = 0 then _
      else if s.max_supply < (s.last_token_id + q) % 2 ^ 64 then
        Except.error (PSP34Error.Custom "CollectionFullOrLocked")
      else _) = _
    rw [if_neg hq, hm3, if_pos hcap]
  simp only [mint_for, hg, mint_for_body, hcv, hca]
  exact congrArg
    (fun st => some (Except.error (PSP34Error.Custom "CollectionFullOrLocked"), st))
    (State.ext rfl rfl rfl hg.symm rfl rfl rfl rfl rfl)

/-- C4 witness: `max_supply = 3`, request 4 with exact payment 20 from a
fresh contract fails with `Custom "CollectionFullOrLocked"` and leaves
the state untouched. -/
theorem mint_for_supply_exceeded_witness :
    mint_for (new 0 "n" "s" "b/" 3 5) 2 20 9 4 =
      some (.error (.Custom "CollectionFullOrLocked"), new 0 "n" "s" "b/" 3 5) :=
  mint_for_supply_exceeded (new 0 "n" "s" "b/" 3 5) 2 9 20 4 rfl (by decide) rfl
    (by decide) (by decide)

/-- C4 counterexample: with `last_token_id + q > max_supply` but a WRONG
payment (0 instead of 5), `mint_for` fails with `Custom "BadMintValue"`,
not with `SupplyExceeded` as the unconditional claim states: the payment
check runs before the supply check. -/
theorem mint_for_wrong_payment_error_cex :
    (new 0 "n" "s" "b/" 0 5).last_token_id + 1 > (new 0 "n" "s" "b/" 0 5).max_supply ∧
    mint_for (new 0 "n" "s" "b/" 0 5) 2 0 9 1 =
      some (.error (.Custom "BadMintValue"), new 0 "n" "s" "b/" 0 5) :=
  ⟨by decide, rfl⟩

/-- C5: for every lock-free state, any quantity `q` and any attached
value different from `q * price_per_mint` (the u128 wrapping product),
`mint_for` fails with `BadPaymentAmount` (`Custom "BadMintValue"`) and
the state is unchanged; likewise `mint` (quantity fixed at 1) for any
value different from `1 * price_per_mint`.  Exact equality is required:
no under- or over-payment tolerance. -/
theorem mint_rejects_bad_payment (s : State) (caller recipient recip2 : Account)
    (tv q tv1 : Nat) (id : Id)
    (hg : s.guard = false)
    (hpay : tv ≠ q * s.price_per_mint % 2 ^ 128)
    (hpay1 : tv1 ≠ 1 * s.price_per_mint % 2 ^ 128) :
    mint_for s caller tv recipient q = some (.error (.Custom "BadMintValue"), s) ∧
    mint s caller tv1 recip2 id = (.error (.Custom "BadMintValue"), s) := by
  constructor
  · have hcv : check_value { s with guard := true } tv q =
        .error (.Custom "BadMintValue") := by
      rw [check_value, if_pos hpay]
    simp only [mint_for, hg, mint_for_body, hcv]
    exact congrArg
      (fun st => some (Except.error (PSP34Error.Custom "BadMintValue"), st))
      (State.ext rfl rfl rfl hg.symm rfl rfl rfl rfl rfl)
  · have hcv : check_value s tv1 1 = .error (.Custom "BadMintValue") := by
      rw [check_value, if_pos hpay1]
    simp only [mint, hcv]

/-- C5 witness: with `price_per_mint = 5`, an overpayment of 3 for 2
tokens (expected 10) and an overpayment of 7 for `mint` (expected 5) are
both rejected with `Custom "BadMintValue"`, state unchanged. -/
theorem mint_rejects_bad_payment_witness :
    mint_for (new 0 "n" "s" "b/" 10 5) 2 3 9 2 =
      some (.error (.Custom "BadMintValue"), new 0 "n" "s" "b/" 10 5) ∧
    mint (new 0 "n" "s" "b/" 10 5) 2 7 9 (Id.U64 0) =
      (.error (.Custom "BadMintValue"), new 0 "n" "s" "b/" 10 5) :=
  mint_rejects_bad_payment (new 0 "n" "s" "b/" 10 5) 2 9 9 3 2 7 (Id.U64 0) rfl
    (by decide) (by decide)

/-- C2 (code bug): the invariant `last_token_id ≤ max_supply` is NOT
preserved by the public `mint` entry point, which performs no supply
check.  From the reachable fresh state with `max_supply = 0` (where the
invariant holds), `mint` with exact single-unit payment succeeds and
leaves the reachable state `last_token_id = 1 > 0 = max_supply`. -/
theorem mint_breaks_supply_cap :
    Reachable (mint (new 0 "n" "s" "b/" 0 1) 2 1 9 (Id.U64 0)).2 ∧
    (new 0 "n" "s" "b/" 0 1).last_token_id ≤ (new 0 "n" "s" "b/" 0 1).max_supply ∧
    (mint (new 0 "n" "s" "b/" 0 1) 2 1 9 (Id.U64 0)).1 = .ok () ∧
    (mint (new 0 "n" "s" "b/" 0 1) 2 1 9 (Id.U64 0)).2.last_token_id = 1 ∧
    (mint (new 0 "n" "s" "b/" 0 1) 2 1 9 (Id.U64 0)).2.max_supply = 0 := by
  refine ⟨?_, by decide, rfl, rfl, rfl⟩
  exact Reachable.step_mint _ 2 1 9 (Id.U64 0) _ _
    (Reachable.construct 0 "n" "s" "b/" 0 1) rfl

/-- C3 (amended): `mint(recipient, ignored_id)` with payment of exactly
one unit price mints token `last_token_id + 1` to the CALLER — the
recipient argument is ignored — and performs no supply-cap check: it
succeeds whenever the next id is unregistered, even when
`last_token_id + 1 > max_supply`.  It therefore does not behave as
`mint_for(recipient, 1)` (see `mint_not_mint_for_cex`). -/
theorem mint_mints_to_caller (s : State) (caller recipient : Account)
    (tv : Nat) (id : Id)
    (hpay : tv = 1 * s.price_per_mint % 2 ^ 128)
    (hfresh : s.owners (Id.U64 ((s.last_token_id + 1) % 2 ^ 64)) = none) :
    mint s caller tv recipient id = (.ok (),
      { s with
        last_token_id := (s.last_token_id + 1) % 2 ^ 64,
        owners := fun j =>
          if j = Id.U64 ((s.last_token_id + 1) % 2 ^ 64) then some caller
          else s.owners j,
        owned := fun a =>
          if a = caller then s.owned a ++ [Id.U64 ((s.last_token_id + 1) % 2 ^ 64)]
          else s.owned a }) := by
  have hcv : check_value s tv 1 = .ok () := by
    simp [check_value, hpay]
  simp only [mint, hcv, mintTo, hfresh]

/-- C3 witness: on a fresh contract with `max_supply = 0` and price 5,
caller 2 calling `mint` with recipient 9 and exact payment 5 gets token
1 minted to account 2 (the caller), with no supply-cap failure. -/
theorem mint_mints_to_caller_witness :
    mint (new 0 "n" "s" "b/" 0 5) 2 5 9 (Id.U64 0) = (.ok (),
      { new 0 "n" "s" "b/" 0 5 with
        last_token_id := 1,
        owners := fun j => if j = Id.U64 1 then some 2 else none,
        owned := fun a => if a = 2 then [Id.U64 1] else [] }) :=
  mint_mints_to_caller (new 0 "n" "s" "b/" 0 5) 2 9 5 (Id.U64 0) rfl rfl

/-- C3 counterexample: with `max_supply = 0` (so `last_token_id + 1 >
max_supply`) and exact single-unit payment, `mint` succeeds and assigns
token 1 to the caller (account 2), not to the recipient argument
(account 9); `mint_for(recipient, 1)` on the same state instead fails
with `Custom "CollectionFullOrLocked"`.  Both halves of the claim fail:
`mint` never reports `SupplyExceeded` and ignores the recipient. -/
theorem mint_not_mint_for_cex :
    (mint (new 0 "n" "s" "b/" 0 1) 2 1 9 (Id.U64 0)).1 = .ok () ∧
    (mint (new 0 "n" "s" "b/" 0 1) 2 1 9 (Id.U64 0)).2.owners (Id.U64 1) = some 2 ∧
    (new 0 "n" "s" "b/" 0 1).last_token_id + 1 > (new 0 "n" "s" "b/" 0 1).max_supply ∧
    mint_for (new 0 "n" "s" "b/" 0 1) 2 1 9 1 =
      some (.error (.Custom "CollectionFullOrLocked"), new 0 "n" "s" "b/" 0 1) :=
  ⟨rfl, rfl, by decide, rfl⟩

/-- C6: `token_uri` on an id with no registered owner fails with
`TokenNotExists` (whatever the base path); on an id with an owner it
returns the plain concatenation of the CURRENT base path, the decimal
string of the id and `".json"`, with no separator normalization —
stated over an arbitrary state, so independent of when the token was
minted. -/
theorem token_uri_spec (s : State) (token_id : Nat) :
    (s.owners (Id.U64 token_id) = none →
      token_uri s token_id = some (.error .TokenNotExists)) ∧
    (∀ a base, s.owners (Id.U64 token_id) = some a →
      s.attributes (Id.U8 0) "baseUri" = some base →
      token_uri s token_id = some (.ok (base ++ toString token_id ++ ".json"))) := by
  constructor
  · intro h
    simp only [token_uri, token_exists, owner_of, h]
  · intro a base ho hb
    simp only [token_uri, token_exists, owner_of, ho, getAttribute, hb]

/-- C6 witness: an unissued id yields `TokenNotExists`; issued token 1
with base path `"b/"` yields `"b/1.json"`. -/
theorem token_uri_spec_witness :
    token_uri (new 0 "n" "s" "b/" 10 5) 5 = some (.error .TokenNotExists) ∧
    token_uri
      { owners := fun j => if j = Id.U64 1 then some 7 else none,
        owned := fun a => if a = 7 then [Id.U64 1] else [],
        attributes := fun i k => if i = Id.U8 0 ∧ k = "baseUri" then some "b/" else none,
        guard := false, owner := 0, last_token_id := 1, collection_id := 0,
        max_supply := 10, price_per_mint := 5 } 1 = some (.ok "b/1.json") :=
  ⟨(token_uri_spec (new 0 "n" "s" "b/" 10 5) 5).1 rfl,
   (token_uri_spec
      { owners := fun j => if j = Id.U64 1 then some 7 else none,
        owned := fun a => if a = 7 then [Id.U64 1] else [],
        attributes := fun i k => if i = Id.U8 0 ∧ k = "baseUri" then some "b/" else none,
        guard := false, owner := 0, last_token_id := 1, collection_id := 0,
        max_supply := 10, price_per_mint := 5 } 1).2 7 "b/" rfl rfl⟩

/-- C7: `set_base_uri` by any caller other than the `Ownable` owner
fails with `NotAuthorized` (`Custom "O::CallerIsNotOwner"`) and leaves
the state — the stored base path included — unchanged; by the owner it
always succeeds, stores the new path, and every subsequent `token_uri`
call on an issued token uses the new path. -/
theorem set_base_uri_spec (s : State) (caller : Account) (uri : String) :
    (caller ≠ s.owner →
      set_base_uri s caller uri = (.error (.Custom "O::CallerIsNotOwner"), s)) ∧
    (caller = s.owner →
      set_base_uri s caller uri = (.ok (), setAttribute s (Id.U8 0) "baseUri" uri) ∧
      (setAttribute s (Id.U8 0) "baseUri" uri).attributes (Id.U8 0) "baseUri" = some uri ∧
      (∀ token_id a, s.owners (Id.U64 token_id) = some a →
        token_uri (setAttribute s (Id.U8 0) "baseUri" uri) token_id =
          some (.ok (uri ++ toString token_id ++ ".json")))) := by
  have hb : (setAttribute s (Id.U8 0) "baseUri" uri).attributes (Id.U8 0) "baseUri"
      = some uri := by
    show (if (Id.U8 0 : Id) = Id.U8 0 ∧ "baseUri" = "baseUri" then some uri
      else s.attributes (Id.U8 0) "baseUri") = some uri
    rw [if_pos ⟨rfl, rfl⟩]
  constructor
  · intro h
    rw [set_base_uri, if_neg h]
  · intro h
    refine ⟨by rw [set_base_uri, if_pos h], hb, ?_⟩
    intro token_id a ho
    have ho2 : (setAttribute s (Id.U8 0) "baseUri" uri).owners (Id.U64 token_id)
        = some a := ho
    simp only [token_uri, token_exists, owner_of, ho2, getAttribute, hb]

/-- C7 witness: owner is account 5; caller 6 is rejected with the state
unchanged; caller 5 succeeds and `token_uri` immediately serves
`"x/1.json"` for the previously minted token 1. -/
theorem set_base_uri_spec_witness :
    set_base_uri
      { owners := fun j => if j = Id.U64 1 then some 7 else none,
        owned := fun a => if a = 7 then [Id.U64 1] else [],
        attributes := fun i k => if i = Id.U8 0 ∧ k = "baseUri" then some "old/" else none,
        guard := false, owner := 5, last_token_id := 1, collection_id := 0,
        max_supply := 10, price_per_mint := 5 } 6 "x/" =
      (.error (.Custom "O::CallerIsNotOwner"),
      { owners := fun j => if j = Id.U64 1 then some 7 else none,
        owned := fun a => if a = 7 then [Id.U64 1] else [],
        attributes := fun i k => if i = Id.U8 0 ∧ k = "baseUri" then some "old/" else none,
        guard := false, owner := 5, last_token_id := 1, collection_id := 0,
        max_supply := 10, price_per_mint := 5 }) ∧
    set_base_uri
      { owners := fun j => if j = Id.U64 1 then some 7 else none,
        owned := fun a => if a = 7 then [Id.U64 1] else [],
        attributes := fun i k => if i = Id.U8 0 ∧ k = "baseUri" then some "old/" else none,
        guard := false, owner := 5, last_token_id := 1, collection_id := 0,
        max_supply := 10, price_per_mint := 5 } 5 "x/" =
      (.ok (), setAttribute
      { owners := fun j => if j = Id.U64 1 then some 7 else none,
        owned := fun a => if a = 7 then [Id.U64 1] else [],
        attributes := fun i k => if i = Id.U8 0 ∧ k = "baseUri" then some "old/" else none,
        guard := false, owner := 5, last_token_id := 1, collection_id := 0,
        max_supply := 10, price_per_mint := 5 } (Id.U8 0) "baseUri" "x/") ∧
    token_uri (setAttribute
      { owners := fun j => if j = Id.U64 1 then some 7 else none,
        owned := fun a => if a = 7 then [Id.U64 1] else [],
        attributes := fun i k => if i = Id.U8 0 ∧ k = "baseUri" then some "old/" else none,
        guard := false, owner := 5, last_token_id := 1, collection_id := 0,
        max_supply := 10, price_per_mint := 5 } (Id.U8 0) "baseUri" "x/") 1 =
      some (.ok "x/1.json") :=
  ⟨(set_base_uri_spec
      { owners := fun j => if j = Id.U64 1 then some 7 else none,
        owned := fun a => if a = 7 then [Id.U64 1] else [],
        attributes := fun i k => if i = Id.U8 0 ∧ k = "baseUri" then some "old/" else none,
        guard := false, owner := 5, last_token_id := 1, collection_id := 0,
        max_supply := 10, price_per_mint := 5 } 6 "x/").1 (by decide),
   ((set_base_uri_spec
      { owners := fun j => if j = Id.U64 1 then some 7 else none,
        owned := fun a => if a = 7 then [Id.U64 1] else [],
        attributes := fun i k => if i = Id.U8 0 ∧ k = "baseUri" then some "old/" else none,
        guard := false, owner := 5, last_token_id := 1, collection_id := 0,
        max_supply := 10, price_per_mint := 5 } 5 "x/").2 rfl).1,
   ((set_base_uri_spec
      { owners := fun j => if j = Id.U64 1 then some 7 else none,
        owned := fun a => if a = 7 then [Id.U64 1] else [],
        attributes := fun i k => if i = Id.U8 0 ∧ k = "baseUri" then some "old/" else none,
        guard := false, owner := 5, last_token_id := 1, collection_id := 0,
        max_supply := 10, price_per_mint := 5 } 5 "x/").2 rfl).2.2 1 7 rfl⟩

/-- C10: the reentrancy guard around `mint_for` (modelled from the
spec, §5/§6).  When the lock is already held a nested call fails
immediately with `ReentrancyDetected` and leaves the whole state — the
lock included, still held for the outer call — unchanged; when the lock
is free on entry, every returning exit path of `mint_for` (success or
failure) leaves the lock released. -/
theorem mint_for_guard (s : State) (caller recipient : Account) (tv q : Nat) :
    (s.guard = true →
      mint_for s caller tv recipient q = some (.error .ReentrancyDetected, s)) ∧
    (s.guard = false → ∀ r s1,
      mint_for s caller tv recipient q = some (r, s1) → s1.guard = false) := by
  constructor
  · intro h
    simp only [mint_for, h]
    rfl
  · intro h r s1 heq
    simp only [mint_for, h] at heq
    cases hb : mint_for_body { s with guard := true } caller tv recipient q with
    | none => rw [hb] at heq; cases heq
    | some p =>
      rw [hb] at heq
      cases p with
      | mk r0 s0 =>
        cases heq
        rfl

/-- C10 witness: a locked state is rejected with `ReentrancyDetected`
and unchanged; an unlocked call (here one failing the payment check)
returns with the lock free. -/
theorem mint_for_guard_witness :
    mint_for
      { owners := fun _ => none, owned := fun _ => [],
        attributes := fun _ _ => none, guard := true, owner := 0,
        last_token_id := 0, collection_id := 0, max_supply := 10,
        price_per_mint := 5 } 4 0 1 1 =
      some (.error .ReentrancyDetected,
      { owners := fun _ => none, owned := fun _ => [],
        attributes := fun _ _ => none, guard := true, owner := 0,
        last_token_id := 0, collection_id := 0, max_supply := 10,
        price_per_mint := 5 }) ∧
    (new 0 "n" "s" "b/" 10 5).guard = false :=
  ⟨(mint_for_guard
      { owners := fun _ => none, owned := fun _ => [],
        attributes := fun _ _ => none, guard := true, owner := 0,
        last_token_id := 0, collection_id := 0, max_supply := 10,
        price_per_mint := 5 } 4 0 1 1).1 rfl,
   (mint_for_guard (new 0 "n" "s" "b/" 10 5) 2 0 9 1).2 rfl
     (.error (.Custom "BadMintValue")) (new 0 "n" "s" "b/" 10 5) rfl⟩

/-- The ownership registry's `_mint_to` never touches the attribute
store. -/
theorem mintTo_attributes (s : State) (recipient : Account) (id : Id) (s2 : State)
    (h : mintTo s recipient id = .ok s2) : s2.attributes = s.attributes := by
  rw [mintTo] at h
  split at h
  · cases h
  · cases h; rfl

/-- `mint` never changes the attribute store. -/
theorem mint_attributes (s : State) (caller : Account) (tv : Nat)
    (recipient : Account) (id : Id) (r : Except PSP34Error Unit) (st1 : State)
    (h : mint s caller tv recipient id = (r, st1)) :
    st1.attributes = s.attributes := by
  simp only [mint] at h
  split at h
  · cases h; rfl
  · split at h
    · cases h; rfl
    · rename_i s2 hmt
      cases h
      exact mintTo_attributes
        { s with last_token_id := (s.last_token_id + 1) % 2 ^ 64 } caller _ _ hmt

/-- The mint loop never changes the attribute store. -/
theorem mintLoop_attributes (recipient : Account) (n : Nat) :
    ∀ (i : Nat) (s s2 : State), mintLoop recipient n i s = some s2 →
      s2.attributes = s.attributes := by
  induction n with
  | zero =>
    intro i s s2 h
    rw [mintLoop] at h
    cases h
    rfl
  | succ n ih =>
    intro i s s2 h
    rw [mintLoop] at h
    split at h
    · cases h
    · rename_i s1 hmt
      have h2 := ih (i + 1) _ s2 h
      rw [h2]
      exact mintTo_attributes s recipient (Id.U64 i) s1 hmt

/-- The `mint_for` body never changes the attribute store. -/
theorem mint_for_body_attributes (s : State) (caller : Account) (tv : Nat)
    (recipient : Account) (q : Nat) (r : Except PSP34Error Unit) (st1 : State)
    (h : mint_for_body s caller tv recipient q = some (r, st1)) :
    st1.attributes = s.attributes := by
  simp only [mint_for_body] at h
  split at h
  · cases h; rfl
  · split at h
    · cases h; rfl
    · split at h
      · cases h
      · rename_i s3 hl
        cases h
        exact mintLoop_attributes recipient _ _ _ _ hl

/-- `mint_for` never changes the attribute store. -/
theorem mint_for_attributes (s : State) (caller : Account) (tv : Nat)
    (recipient : Account) (q : Nat) (r : Except PSP34Error Unit) (st1 : State)
    (h : mint_for s caller tv recipient q = some (r, st1)) :
    st1.attributes = s.attributes := by
  rw [mint_for] at h
  split at h
  · cases h; rfl
  · split at h
    · cases h
    · rename_i p hb
      cases h
      exact mint_for_body_attributes { s with guard := true } caller tv recipient q r p hb

/-- `set_base_uri` keeps the `baseUri` attribute set: it either leaves
the store unchanged or overwrites the key with a present value. -/
theorem set_base_uri_keeps_baseUri (s : State) (caller : Account) (uri : String)
    (r : Except PSP34Error Unit) (st1 : State)
    (h : set_base_uri s caller uri = (r, st1))
    (hbase : s.attributes (Id.U8 0) "baseUri" ≠ none) :
    st1.attributes (Id.U8 0) "baseUri" ≠ none := by
  rw [set_base_uri] at h
  split at h
  · cases h
    show (if (Id.U8 0 : Id) = Id.U8 0 ∧ "baseUri" = "baseUri" then some uri
      else s.attributes (Id.U8 0) "baseUri") ≠ none
    rw [if_pos ⟨rfl, rfl⟩]
    exact Option.some_ne_none uri
  · cases h
    exact hbase

/-- In every state reachable from construction the `baseUri` attribute
is set: the constructor stores it and no operation removes it. -/
theorem reachable_baseUri_set (s : State) (h : Reachable s) :
    s.attributes (Id.U8 0) "baseUri" ≠ none := by
  induction h with
  | construct caller name symbol base_uri ms price =>
    show (if (Id.U8 0 : Id) = Id.U8 0 ∧ "baseUri" = "baseUri" then some base_uri
      else (setAttribute (setAttribute
        { owners := fun _ => none, owned := fun _ => [],
          attributes := fun _ _ => none, guard := false, owner := caller,
          last_token_id := 0, collection_id := 0, max_supply := ms,
          price_per_mint := price }
        (Id.U8 0) "name" name) (Id.U8 0) "symbol" symbol).attributes
          (Id.U8 0) "baseUri") ≠ none
    rw [if_pos ⟨rfl, rfl⟩]
    exact Option.some_ne_none base_uri
  | step_mint s caller tv recipient id r s1 _ heq ih =>
    rw [mint_attributes s caller tv recipient id r s1 heq]
    exact ih
  | step_mint_for s caller tv recipient q r s1 _ heq ih =>
    rw [mint_for_attributes s caller tv recipient q r s1 heq]
    exact ih
  | step_set_base_uri s caller uri r s1 _ heq ih =>
    exact set_base_uri_keeps_baseUri s caller uri r s1 heq ih

/-- C9 (amended): in any state where the base-path attribute (keyed at
sentinel `Id::U8(0)` under `"baseUri"`) is unset while some token has an
owner, `token_uri` on that token ABORTS (the source `unwrap`s the
missing attribute, modelled by `none`) instead of returning a typed
error; such states are nevertheless unreachable from construction,
because the constructor always sets the base path and every operation
keeps it set. -/
theorem token_uri_missing_base_panics :
    (∀ (s : State) (token_id : Nat) (a : Account),
      s.owners (Id.U64 token_id) = some a →
      s.attributes (Id.U8 0) "baseUri" = none →
      token_uri s token_id = none) ∧
    (∀ s : State, Reachable s → s.attributes (Id.U8 0) "baseUri" ≠ none) := by
  constructor
  · intro s token_id a ho hb
    simp only [token_uri, token_exists, owner_of, ho, getAttribute, hb]
  · exact fun s h => reachable_baseUri_set s h

/-- C9 counterexample: an explicit (unreachable) state with token 1
owned and no `baseUri` attribute makes `token_uri 1` abort (`none`, the
model of the `unwrap` panic) — not the typed internal-consistency error
the claim requires. -/
theorem token_uri_panic_cex :
    ({ owners := fun j => if j = Id.U64 1 then some 3 else none,
       owned := fun a => if a = 3 then [Id.U64 1] else [],
       attributes := fun _ _ => none, guard := false, owner := 0,
       last_token_id := 1, collection_id := 0, max_supply := 10,
       price_per_mint := 5 } : State).owners (Id.U64 1) = some 3 ∧
    ({ owners := fun j => if j = Id.U64 1 then some 3 else none,
       owned := fun a => if a = 3 then [Id.U64 1] else [],
       attributes := fun _ _ => none, guard := false, owner := 0,
       last_token_id := 1, collection_id := 0, max_supply := 10,
       price_per_mint := 5 } : State).attributes (Id.U8 0) "baseUri" = none ∧
    token_uri
      { owners := fun j => if j = Id.U64 1 then some 3 else none,
        owned := fun a => if a = 3 then [Id.U64 1] else [],
        attributes := fun _ _ => none, guard := false, owner := 0,
        last_token_id := 1, collection_id := 0, max_supply := 10,
        price_per_mint := 5 } 1 = none :=
  ⟨rfl, rfl, rfl⟩

/-- C9 witness: the panic branch at the explicit unset-base state, and
the reachability invariant applied to a freshly constructed state. -/
theorem token_uri_missing_base_panics_witness :
    token_uri
      { owners := fun j => if j = Id.U64 1 then some 3 else none,
        owned := fun a => if a = 3 then [Id.U64 1] else [],
        attributes := fun _ _ => none, guard := false, owner := 0,
        last_token_id := 1, collection_id := 0, max_supply := 10,
        price_per_mint := 5 } 1 = none ∧
    (new 0 "n" "s" "b/" 10 5).attributes (Id.U8 0) "baseUri" ≠ none :=
  ⟨token_uri_missing_base_panics.1
      { owners := fun j => if j = Id.U64 1 then some 3 else none,
        owned := fun a => if a = 3 then [Id.U64 1] else [],
        attributes := fun _ _ => none, guard := false, owner := 0,
        last_token_id := 1, collection_id := 0, max_supply := 10,
        price_per_mint := 5 } 1 3 rfl rfl,
   token_uri_missing_base_panics.2 (new 0 "n" "s" "b/" 10 5)
      (Reachable.construct 0 "n" "s" "b/" 10 5)⟩

/-- C8 (code bug): `check_amount` adds `last_token_id + mint_amount` in
plain u64 arithmetic, which wraps (release profile) instead of using
checked arithmetic.  With `last_token_id = 1`, `max_supply = 1` (a full
collection) and `mint_amount = 2 ^ 64 - 1`, the true sum `2 ^ 64`
exceeds `max_supply` but the wrapped sum is `0 ≤ 1`, so `check_amount`
returns `ok` instead of rejecting with `SupplyExceeded`, and the
surrounding `mint_for` call returns success (the wrapped loop range is
empty, so the payment is kept and nothing is minted). -/
theorem check_amount_wraps :
    ({ owners := fun j => if j = Id.U64 1 then some 0 else none,
       owned := fun a => if a = 0 then [Id.U64 1] else [],
       attributes := fun _ _ => none, guard := false, owner := 0,
       last_token_id := 1, collection_id := 0, max_supply := 1,
       price_per_mint := 0 } : State).max_supply <
      ({ owners := fun j => if j = Id.U64 1 then some 0 else none,
         owned := fun a => if a = 0 then [Id.U64 1] else [],
         attributes := fun _ _ => none, guard := false, owner := 0,
         last_token_id := 1, collection_id := 0, max_supply := 1,
         price_per_mint := 0 } : State).last_token_id + (2 ^ 64 - 1) ∧
    check_amount
      { owners := fun j => if j = Id.U64 1 then some 0 else none,
        owned := fun a => if a = 0 then [Id.U64 1] else [],
        attributes := fun _ _ => none, guard := false, owner := 0,
        last_token_id := 1, collection_id := 0, max_supply := 1,
        price_per_mint := 0 } (2 ^ 64 - 1) = .ok () ∧
    resOf (mint_for
      { owners := fun j => if j = Id.U64 1 then some 0 else none,
        owned := fun a => if a = 0 then [Id.U64 1] else [],
        attributes := fun _ _ => none, guard := false, owner := 0,
        last_token_id := 1, collection_id := 0, max_supply := 1,
        price_per_mint := 0 } 4 0 2 (2 ^ 64 - 1)) = some (.ok ()) ∧
    lastOf (mint_for
      { owners := fun j => if j = Id.U64 1 then some 0 else none,
        owned := fun a => if a = 0 then [Id.U64 1] else [],
        attributes := fun _ _ => none, guard := false, owner := 0,
        last_token_id := 1, collection_id := 0, max_supply := 1,
        price_per_mint := 0 } 4 0 2 (2 ^ 64 - 1)) = some 1 :=
  ⟨by decide, rfl, rfl, rfl⟩

end Shiden34
